import Mathlib

/-!
Verification of the flyweight tree-node module
(`src/gallery-flyweight-tree/js/flyweight-tree-node.js`).

The JavaScript records ("nodes of the configuration tree") are plain
mutable objects linked by `children` (lists of references) and `_parent`
back-references.  We embed them as a heap mapping record ids (`Nat`) to
`TreeRecord` values.  Wrapper objects (`FlyweightTreeNode` instances)
live in a separate id space; a `World` carries the heap, the wrapper
bindings (`_node` pointers), the manager's pool free list, the presence
of a `dynamicLoader` and a trace of observable events (DOM class and
content operations, pool operations, loader invocations).

JavaScript object identity matters in `getNextSibling` /
`getPreviousSibling` (`siblings.indexOf(this)` compares the wrapper
object with record objects), so references are embedded as a sum type
`Ref` distinguishing record references from wrapper references.

Methods of the node act through `this._node` (the bound record); the
record-level core functions below take that record id explicitly, and
wrapper-level entry points resolve the binding first.
-/

/-- A JavaScript value, as far as boolean coercion (`!!v`, `if (v)`) is
concerned. -/
inductive JSVal where
  | bool (b : Bool)
  | null
  | undef
  | num (n : Int)
  | str (s : String)
deriving DecidableEq

/-- JavaScript truthiness of a value. -/
def jsToBool : JSVal → Bool
  | .bool b => b
  | .null => false
  | .undef => false
  | .num n => n != 0
  | .str s => s != ""

/-- A reference to a JavaScript object: either a record of the
configuration tree or a flyweight wrapper instance.  Distinct
constructors model that a wrapper object is never `===` to a record
object. -/
inductive Ref where
  | record (i : Nat)
  | wrapper (i : Nat)
deriving DecidableEq

/-- One record of the underlying configuration tree.  Field names follow
the JavaScript source (`expanded`, `isLeaf`, `children`, `_parent`,
`_rendered`, `_childrenRendered`, `_held`).  `expanded : Option Bool`
distinguishes an absent property (`undefined`) from `true`/`false`;
`children : Option (List Nat)` distinguishes an absent `children`
property from a (possibly empty) array of record ids. -/
structure TreeRecord where
  id : String := ""
  label : String := ""
  template : Option String := none
  expanded : Option Bool := none
  isLeaf : Bool := false
  children : Option (List Nat) := none
  _parent : Option Nat := none
  _rendered : Bool := false
  _childrenRendered : Bool := false
  _held : Option Nat := none
deriving DecidableEq

/-- Observable events: pool traffic, invocations of the iteration
callback, invocations of the dynamic loader, and the two DOM operations
the module issues (`replaceClass`, `setContent`), keyed by the record's
`id` as in the source. -/
inductive Ev where
  | poolFetch (rid w : Nat)
  | poolReturn (w : Nat)
  | fnCall (w idx : Nat)
  | loaderCall (rid : Nat)
  | replaceClass (id oldCls newCls : String)
  | setContent (id html : String)
deriving DecidableEq

/-- The mutable state: the record heap, the wrapper bindings (`_node`
pointers, `none` = unbound), the manager's pool free list and allocation
counter, whether a `dynamicLoader` is configured on the manager, and the
event trace. -/
structure World where
  heap : Nat → TreeRecord
  binds : Nat → Option Nat
  freeList : List Nat := []
  nextWrap : Nat := 0
  dynLoader : Bool := false
  trace : List Ev := []

/-- Pointwise update of the heap at one record id. -/
def hUpdate (h : Nat → TreeRecord) (i : Nat) (r : TreeRecord) : Nat → TreeRecord :=
  fun j => if j = i then r else h j

/-- Apply a field update to the record at `rid`. -/
def updRec (W : World) (rid : Nat) (f : TreeRecord → TreeRecord) : World :=
  { W with heap := hUpdate W.heap rid (f (W.heap rid)) }

/-- Append one event to the trace. -/
def emit (W : World) (e : Ev) : World :=
  { W with trace := W.trace ++ [e] }

/-- CSS class-name constants.  Modelled from the spec: their values are
set in the manager module (not under `src/`); the spec treats class
naming as an opaque convention, so only their distinctness matters. -/
def CNAME_NODE : String := "yui3-fw-treenode"

/-- Class for the element containing the children (see `CNAME_NODE`). -/
def CNAME_CHILDREN : String := "yui3-fw-treenode-children"

/-- Class marking a collapsed node (see `CNAME_NODE`). -/
def CNAME_COLLAPSED : String := "yui3-fw-treenode-collapsed"

/-- Class marking an expanded node (see `CNAME_NODE`). -/
def CNAME_EXPANDED : String := "yui3-fw-treenode-expanded"

/-- Class marking a node without children (see `CNAME_NODE`). -/
def CNAME_NOCHILDREN : String := "yui3-fw-treenode-nochildren"

/-- Class marking a first sibling (see `CNAME_NODE`). -/
def CNAME_FIRSTCHILD : String := "yui3-fw-treenode-firstchild"

/-- Class marking a last sibling (see `CNAME_NODE`). -/
def CNAME_LASTCHILD : String := "yui3-fw-treenode-lastchild"

/-- Class marking a node whose children are being loaded (see
`CNAME_NODE`). -/
def CNAME_LOADING : String := "yui3-fw-treenode-loading"

/-- The static `TEMPLATE` property of `FlyweightTreeNode` (source lines
371). -/
def TEMPLATE : String :=
  "<div id=\"\x7bid\x7d\" class=\"\x7bcname_node\x7d\"><div class=\"content\">\x7blabel\x7d</div><div class=\"\x7bcname_children\x7d\">\x7bchildren\x7d</div></div>"

/-- Embedding of `Y.Lang.sub`: replace each `\x7bname\x7d` placeholder by the
corresponding attribute value. -/
def langSub (templ : String) (attrs : List (String × String)) : String :=
  attrs.foldl (fun t kv => t.replace ("\x7b" ++ kv.1 ++ "\x7d") kv.2) templ

/-- Embedding of `Array.prototype.indexOf`: index of the first element `===` to `x`,
or `-1` when there is none. -/
def jsIndexOf (x : Ref) : List Ref → Int
  | [] => -1
  | y :: l =>
      if y = x then 0
      else
        let r := jsIndexOf x l
        if r < 0 then -1 else r + 1

/-- The JavaScript `childCount = node.children && node.children.length`:
`0` exactly when `children` is absent or empty (both are falsy as a
count). -/
def jsChildCount (node : TreeRecord) : Nat :=
  match node.children with
  | none => 0
  | some l => l.length

/-- Embedding of `_expandedGetter` (source lines 144-146): `this._node.expanded !==
false`, i.e. the attribute defaults to `true` when the record has no
`expanded` property. -/
def _expandedGetter (node : TreeRecord) : Bool :=
  node.expanded != some false

/-- Template resolution in `_getHTML` (source lines 58-67): the record's
own `template` property if truthy (a non-empty string), else the static
class `TEMPLATE`. -/
def resolveTemplate (node : TreeRecord) : String :=
  match node.template with
  | some t => if t = "" then TEMPLATE else t
  | none => TEMPLATE

/-- Modelled from the spec: `_poolFetch` is manager code, not under
`src/`.  Spec section 4.1: "if `record._held` is set, returns that
pinned wrapper unchanged (bound to `record`).  Otherwise pops a wrapper
from the free list (allocating a new one if empty), binds it to
`record` ..., and returns it." -/
def _poolFetch (W : World) (rid : Nat) : Nat × World :=
  match (W.heap rid)._held with
  | some w => (w, emit W (Ev.poolFetch rid w))
  | none =>
      match W.freeList with
      | w :: rest =>
          (w, emit { W with freeList := rest,
                            binds := fun j => if j = w then some rid else W.binds j }
                (Ev.poolFetch rid w))
      | [] =>
          let w := W.nextWrap
          (w, emit { W with nextWrap := w + 1,
                            binds := fun j => if j = w then some rid else W.binds j }
                (Ev.poolFetch rid w))

/-- Modelled from the spec: `_poolReturn` is manager code, not under
`src/`.  Spec section 4.1: "if the wrapper's bound record is held, this
is a no-op (held nodes are never recycled); otherwise the wrapper is
unbound and pushed back to the free list".  The `Ev.poolReturn` event
records the call itself. -/
def _poolReturn (W : World) (w : Nat) : World :=
  let W0 := emit W (Ev.poolReturn w)
  match W.binds w with
  | none => W0
  | some rid =>
      if (W.heap rid)._held.isSome then W0
      else { W0 with binds := fun j => if j = w then none else W.binds j,
                     freeList := w :: W.freeList }

/-- The iteration core of `forSomeChildren` (source lines 126-131,
`YArray.some`): for each child in stored order, fetch a wrapper for it,
invoke `fn`, return the wrapper to the pool, and stop as soon as `fn`
returns a truthy value.  `fn` receives the fetched child wrapper id, the
index, and the whole siblings array, and threads a state of type `σ`
(the JavaScript callback's closure state) and the `World`. -/
def forSomeSteps {σ : Type} (fn : σ → World → Nat → Nat → List Nat → σ × World × Bool)
    (arr : List Nat) : List Nat → Nat → σ → World → σ × World
  | [], _, s, W => (s, W)
  | c :: cs, i, s, W =>
      let fw := _poolFetch W c
      let W2 := emit fw.2 (Ev.fnCall fw.1 i)
      let r := fn s W2 fw.1 i arr
      let W4 := _poolReturn r.2.1 fw.1
      if r.2.2 then (r.1, W4) else forSomeSteps fn arr cs (i + 1) r.1 W4

/-- Embedding of `forSomeChildren` (source lines 120-133), record-level core (`this`
only contributes `this._node`, passed as `rid`): if the record's
`children` array is present and non-empty, run `YArray.some` over it. -/
def forSomeChildren {σ : Type} (fn : σ → World → Nat → Nat → List Nat → σ × World × Bool)
    (W : World) (rid : Nat) (init : σ) : σ × World :=
  match (W.heap rid).children with
  | some l => if l.length = 0 then (init, W) else forSomeSteps fn l l 0 init W
  | none => (init, W)

/-- Embedding of `getParent` (source lines 257-260): fetch a wrapper for
`this._node._parent`, or `null` when there is none.  An unbound wrapper
is a contract violation (the source would dereference `null`); it is
modelled as inert. -/
def getParent (W : World) (w : Nat) : Option Nat × World :=
  match W.binds w with
  | none => (none, W)
  | some rid =>
      match (W.heap rid)._parent with
      | none => (none, W)
      | some p =>
          let fw := _poolFetch W p
          (some fw.1, fw.2)

/-- Embedding of `getNextSibling` (source lines 268-276).  `siblings` is the array of
record references `(parent && parent.children) || []`; the source
computes `siblings.indexOf(this) + 1` where `this` is the *wrapper*
object, compared by identity against record objects. -/
def getNextSibling (W : World) (w : Nat) : Option Nat × World :=
  match W.binds w with
  | none => (none, W)
  | some rid =>
      let siblings : List Nat :=
        match (W.heap rid)._parent with
        | some p => ((W.heap p).children).getD []
        | none => []
      let index : Int := jsIndexOf (Ref.wrapper w) (siblings.map Ref.record) + 1
      if index = 0 ∨ index > (siblings.length : Int) then (none, W)
      else
        match siblings.get? index.toNat with
        | some s =>
            let fw := _poolFetch W s
            (some fw.1, fw.2)
        | none => (none, W)

/-- Embedding of `getPreviousSibling` (source lines 284-292), with
`siblings.indexOf(this) - 1` and a `< 0` boundary check. -/
def getPreviousSibling (W : World) (w : Nat) : Option Nat × World :=
  match W.binds w with
  | none => (none, W)
  | some rid =>
      let siblings : List Nat :=
        match (W.heap rid)._parent with
        | some p => ((W.heap p).children).getD []
        | none => []
      let index : Int := jsIndexOf (Ref.wrapper w) (siblings.map Ref.record) - 1
      if index < 0 then (none, W)
      else
        match siblings.get? index.toNat with
        | some s =>
            let fw := _poolFetch W s
            (some fw.1, fw.2)
        | none => (none, W)

/-- Embedding of `hold` (source lines 235-237): `this._node._held = this`. -/
def hold (W : World) (w : Nat) : World :=
  match W.binds w with
  | none => W
  | some rid => updRec W rid (fun n => { n with _held := some w })

/-- Embedding of `release` (source lines 245-249): `this._node._held = null;
this._root._poolReturn(this)`. -/
def release (W : World) (w : Nat) : World :=
  match W.binds w with
  | none => W
  | some rid => _poolReturn (updRec W rid (fun n => { n with _held := none })) w

/-- The `depth` attribute getter (source lines 488-496): walk `_parent`
links counting them, return `count - 1` (the sentinel super-root that
`_initNodes` installs above the user's roots is thereby excluded).
`fuel` bounds the `while` walk; any fuel at least the chain length gives
the exact count. -/
def depthCount (fuel : Nat) (h : Nat → TreeRecord) (rid : Nat) : Nat :=
  match fuel with
  | 0 => 0
  | Nat.succ fuel =>
      match (h rid)._parent with
      | none => 0
      | some p => depthCount fuel h p + 1

/-- The value the `depth` getter returns: `count - 1` as a JavaScript
number (for a record with no `_parent` at all this is `-1`). -/
def depthGetter (fuel : Nat) (h : Nat → TreeRecord) (rid : Nat) : Int :=
  (depthCount fuel h rid : Int) - 1

/-- The `nodeClasses` list built by `_getHTML` (source lines 60-92),
joined with `' '`: always `CNAME_NODE`; then expanded/collapsed when
there are children, else collapsed when a dynamic load is still
possible, else no-children; then first/last-child markers from the
position among the siblings. -/
def nodeClassString (node : TreeRecord) (dynLoader : Bool) (index nSiblings : Nat) : String :=
  String.intercalate " "
    ([CNAME_NODE,
      if jsChildCount node != 0 then
        (if _expandedGetter node then CNAME_EXPANDED else CNAME_COLLAPSED)
      else if dynLoader && !node.isLeaf then CNAME_COLLAPSED else CNAME_NOCHILDREN]
      ++ (if index = 0 then [CNAME_FIRSTCHILD] else [])
      ++ (if (index : Int) = (nSiblings : Int) - 1 then [CNAME_LASTCHILD] else []))

/-- The attribute map handed to `Y.Lang.sub` (source lines 93-97): the
record's attributes plus the computed `children`, `cname_node` and
`cname_children` entries.  Only the attributes the templates consume are
listed. -/
def attrsList (node : TreeRecord) (childrenMarkup classStr : String) :
    List (String × String) :=
  [("id", node.id), ("label", node.label), ("children", childrenMarkup),
   ("cname_node", classStr), ("cname_children", CNAME_CHILDREN)]

/-- Embedding of `_getHTML` (source lines 52-99).  Marks the record `_rendered`; when
it has children and the `expanded` attribute is true it also marks
`_childrenRendered` and accumulates the children's markup through
`forSomeChildren` (the callback at lines 73-75, which always returns a
falsy value); finally substitutes the attributes into the resolved
template.  `fuel` bounds the recursion depth of the JavaScript original
(which recurses along the tree). -/
def _getHTML (fuel : Nat) (W : World) (rid : Nat) (index nSiblings : Nat) (depth : Int) :
    String × World :=
  match fuel with
  | 0 => ("", W)
  | Nat.succ fuel =>
      let node := W.heap rid
      let templ := resolveTemplate node
      let sW :=
        if (jsChildCount node != 0) && _expandedGetter node then
          forSomeChildren
            (fun (s : String) Wf wc ic arr =>
              match Wf.binds wc with
              | some crid =>
                  let p := _getHTML fuel Wf crid ic arr.length (depth + 1)
                  (s ++ p.1, p.2, false)
              | none => (s, Wf, false))
            { W with heap := hUpdate W.heap rid
                       { node with _rendered := true, _childrenRendered := true } }
            rid ""
        else
          ("", { W with heap := hUpdate W.heap rid { node with _rendered := true } })
      (langSub templ (attrsList node sW.1 (nodeClassString node W.dynLoader index nSiblings)),
       sW.2)

/-- Embedding of `_renderChildren` (source lines 219-228): read the `depth`
attribute, mark `_childrenRendered`, accumulate the children's markup,
and set it as the content of the children container element. -/
def _renderChildren (fuel : Nat) (W : World) (rid : Nat) : World :=
  let depth := depthGetter fuel W.heap rid
  let node := W.heap rid
  let W1 := updRec W rid (fun n => { n with _childrenRendered := true })
  let sW :=
    forSomeChildren
      (fun (s : String) Wf wc ic arr =>
        match Wf.binds wc with
        | some crid =>
            let p := _getHTML fuel Wf crid ic arr.length (depth + 1)
            (s ++ p.1, p.2, false)
        | none => (s, Wf, false))
      W1 rid ""
  emit sW.2 (Ev.setContent node.id sW.1)

/-- Embedding of `_loadDynamic` (source lines 184-190): swap the collapsed class for
the loading class and invoke the manager's `dynamicLoader` with this
node and the `_dynamicLoadReturn` callback.  The loader itself is an
external, asynchronous collaborator; the event records its
invocation. -/
def _loadDynamic (W : World) (rid : Nat) : World :=
  emit (emit W (Ev.replaceClass (W.heap rid).id CNAME_COLLAPSED CNAME_LOADING))
    (Ev.loaderCall rid)

/-- Embedding of `_expandedSetter` (source lines 156-178), record-level core: write
`node.expanded = !!value` first; then, if a dynamic loader is configured
and the record is not a leaf and has no children, trigger a dynamic load
(whatever the new value); otherwise, when there are children, render
them if they never were and swap the collapsed/expanded classes. -/
def _expandedSetter (fuel : Nat) (W : World) (rid : Nat) (v : JSVal) : World :=
  let value := jsToBool v
  let node := { W.heap rid with expanded := some value }
  let W1 : World := { W with heap := hUpdate W.heap rid node }
  if W1.dynLoader && !node.isLeaf && (jsChildCount node == 0) then
    _loadDynamic W1 rid
  else if jsChildCount node != 0 then
    if value then
      let W2 := if !node._childrenRendered then _renderChildren fuel W1 rid else W1
      emit W2 (Ev.replaceClass node.id CNAME_COLLAPSED CNAME_EXPANDED)
    else
      emit W1 (Ev.replaceClass node.id CNAME_EXPANDED CNAME_COLLAPSED)
  else W1

/-- Setting the `expanded` attribute on a bound wrapper: the attribute's
setter is `_expandedSetter`, acting through the bound record. -/
def setExpanded (fuel : Nat) (W : World) (w : Nat) (v : JSVal) : World :=
  match W.binds w with
  | none => W
  | some rid => _expandedSetter fuel W rid v

/-- Modelled from the spec: `_initNodes` is manager code, not under
`src/`.  Spec section 4.1: "recursively walks freshly attached raw data
(e.g., a dynamic-load response) and normalizes it into TreeRecord shape:
assigns identifiers if absent, sets `_parent` back-references, marks
leaves (`children` absent or empty and no dynamic loader
configured)". -/
def _initNodes (fuel : Nat) (W : World) (rid : Nat) : World :=
  match fuel with
  | 0 => W
  | Nat.succ fuel =>
      if jsChildCount (W.heap rid) = 0 then
        if W.dynLoader then W
        else updRec W rid (fun n => { n with isLeaf := true })
      else
        (((W.heap rid).children).getD []).foldl
          (fun Wacc c =>
            _initNodes fuel (updRec Wacc c (fun n => { n with _parent := some rid })) c)
          W

/-- Embedding of `_dynamicLoadReturn` (source lines 197-212): on a truthy response
(note: in JavaScript an *empty array is truthy*), attach it as the
record's children, normalize via `_initNodes`, render the children, and
finally swap the loading class for no-children or expanded according to
`node.isLeaf`; on a falsy response, set `node.isLeaf = true` before that
final class swap. -/
def _dynamicLoadReturn (fuel : Nat) (W : World) (rid : Nat) (response : Option (List Nat)) :
    World :=
  match response with
  | some l =>
      let W1 := updRec W rid (fun n => { n with children := some l })
      let W2 := _initNodes fuel W1 rid
      let W3 := _renderChildren fuel W2 rid
      let node := W3.heap rid
      emit W3 (Ev.replaceClass node.id CNAME_LOADING
        (if node.isLeaf then CNAME_NOCHILDREN else CNAME_EXPANDED))
  | none =>
      let W1 := updRec W rid (fun n => { n with isLeaf := true })
      let node := W1.heap rid
      emit W1 (Ev.replaceClass node.id CNAME_LOADING
        (if node.isLeaf then CNAME_NOCHILDREN else CNAME_EXPANDED))

/-- A sequence of writes to the `expanded` attribute of one record
(repeated `set('expanded', v)` calls). -/
def applySets (fuel : Nat) (rid : Nat) : List JSVal → World → World
  | [], W => W
  | v :: vs, W => applySets fuel rid vs (_expandedSetter fuel W rid v)

/-- Specification-side rendering of a sibling list: plain structural
iteration over all children in stored order, fetching and immediately
returning a wrapper around each recursive `_getHTML` call, concatenating
the markup left to right. -/
def renderAll (fuel : Nat) (depth : Int) (arr : List Nat) :
    List Nat → Nat → String → World → String × World
  | [], _, s, W => (s, W)
  | c :: cs, i, s, W =>
      let fw := _poolFetch W c
      let W2 := emit fw.2 (Ev.fnCall fw.1 i)
      let sW :=
        match W2.binds fw.1 with
        | some crid =>
            let p := _getHTML fuel W2 crid i arr.length (depth + 1)
            (s ++ p.1, p.2)
        | none => (s, W2)
      renderAll fuel depth arr cs (i + 1) sW.1 (_poolReturn sW.2 fw.1)

/-- Specification-side iteration cut: the `(index, child)` pairs a
short-circuiting "some" iteration visits, i.e. the children up to and
including the first one whose verdict is truthy. -/
def coveredPrefix (verdicts : Nat → Bool) : List Nat → Nat → List (Nat × Nat)
  | [], _ => []
  | c :: cs, i => if verdicts i then [(i, c)] else (i, c) :: coveredPrefix verdicts cs (i + 1)

/-- Expected event trace of one pooled iteration pass reusing the single
free wrapper `w0`: for each visited child, a pool fetch, the callback
invocation, and an immediate pool return. -/
def tripleTrace (w0 : Nat) : List (Nat × Nat) → List Ev
  | [] => []
  | p :: t => Ev.poolFetch p.2 w0 :: Ev.fnCall w0 p.1 :: Ev.poolReturn w0 :: tripleTrace w0 t

/-- Number of dynamic-loader invocations recorded in a trace. -/
def countLoad : List Ev → Nat
  | [] => 0
  | Ev.loaderCall _ :: t => countLoad t + 1
  | _ :: t => countLoad t

/-- Equality of all record fields except the transient render flags
`_rendered` and `_childrenRendered`. -/
def FrameEq (a b : TreeRecord) : Prop :=
  a.id = b.id ∧ a.label = b.label ∧ a.template = b.template ∧ a.expanded = b.expanded ∧
  a.isLeaf = b.isLeaf ∧ a.children = b.children ∧ a._parent = b._parent ∧ a._held = b._held

/-- One rendering step relates records by `FrameEq` and can only switch
the render flags from `false` to `true`. -/
def RStep (a b : TreeRecord) : Prop :=
  FrameEq a b ∧ (a._rendered = true → b._rendered = true) ∧
    (a._childrenRendered = true → b._childrenRendered = true)

/-- The rendering callback passed to `forSomeChildren` by `_getHTML`
(source lines 73-75) and `_renderChildren` (source lines 224-226): the
child wrapper renders itself at the next depth, the markup accumulates
in `s`, and the callback's result is always falsy, so iteration never
short-circuits. -/
def renderFn (fuel : Nat) (depth : Int) :
    String → World → Nat → Nat → List Nat → String × World × Bool :=
  fun s Wf wc ic arr =>
    match Wf.binds wc with
    | some crid =>
        let p := _getHTML fuel Wf crid ic arr.length (depth + 1)
        (s ++ p.1, p.2, false)
    | none => (s, Wf, false)

/-- Rendering-only world evolution: every record evolves by `RStep` (no
field but the render flags changes, and those only from `false` to
`true`) and no dynamic-loader invocation is added to the trace. -/
def RenderOk (W W2 : World) : Prop :=
  (∀ r, RStep (W.heap r) (W2.heap r)) ∧ countLoad W2.trace = countLoad W.trace

/-- Example configuration for the sibling claims: parent record `0` with
children `[1, 2, 3]` (x, y, z), wrappers `10`, `11`, `12` bound to
them. -/
def sibWorld : World :=
  { heap := fun i =>
      if i = 0 then { id := "p", children := some [1, 2, 3] }
      else if i = 1 then { id := "x", _parent := some 0 }
      else if i = 2 then { id := "y", _parent := some 0 }
      else if i = 3 then { id := "z", _parent := some 0 }
      else {},
    binds := fun j =>
      if j = 10 then some 1 else if j = 11 then some 2 else if j = 12 then some 3 else none,
    freeList := [20], nextWrap := 21 }

/-- Example configuration for the dynamic-loading claims: record `1` has
no children, is not a leaf, and the manager has a loader configured;
wrapper `10` is bound to it. -/
def dynWorld : World :=
  { heap := fun i => if i = 1 then { id := "n1", expanded := some true } else {},
    binds := fun j => if j = 10 then some 1 else none,
    freeList := [], nextWrap := 11, dynLoader := true }

/-- Example heap for the depth claim: records `1` (a user root, child of
the sentinel super-root `0`), `2`, `3`, `4` chained by `_parent`. -/
def chainHeap : Nat → TreeRecord := fun i =>
  if i = 1 then { _parent := some 0 }
  else if i = 2 then { _parent := some 1 }
  else if i = 3 then { _parent := some 2 }
  else if i = 4 then { _parent := some 3 }
  else {}

/-- Example configuration for the absence claims: record `1` has neither
parent nor children (wrapper `10`); record `3` is the only child of `2`
(wrapper `11`). -/
def absWorld : World :=
  { heap := fun i =>
      if i = 1 then { id := "a" }
      else if i = 2 then { id := "p", children := some [3] }
      else if i = 3 then { id := "c", _parent := some 2 }
      else {},
    binds := fun j => if j = 10 then some 1 else if j = 11 then some 3 else none }

/-- Example configuration for the iteration claim: record `5` with three
children and a pool whose free list holds the single wrapper `30`. -/
def iterWorld : World :=
  { heap := fun i => if i = 5 then { children := some [6, 7, 8] } else {},
    binds := fun _ => none, freeList := [30], nextWrap := 31 }

theorem hUpdate_self (h : Nat → TreeRecord) (i : Nat) (r : TreeRecord) :
    hUpdate h i r i = r := by
  simp [hUpdate]

theorem hUpdate_ne (h : Nat → TreeRecord) (i : Nat) (r : TreeRecord) (j : Nat)
    (hj : j ≠ i) : hUpdate h i r j = h j := by
  simp [hUpdate, hj]

theorem countLoad_append (l m : List Ev) :
    countLoad (l ++ m) = countLoad l + countLoad m := by
  induction l with
  | nil => simp [countLoad]
  | cons e t ih =>
      cases e <;> simp [countLoad, ih]
      omega

theorem RStep_refl (a : TreeRecord) : RStep a a := by
  simp [RStep, FrameEq]

theorem RStep_trans {a b c : TreeRecord} (h1 : RStep a b) (h2 : RStep b c) :
    RStep a c := by
  obtain ⟨⟨e1, e2, e3, e4, e5, e6, e7, e8⟩, m1, m2⟩ := h1
  obtain ⟨⟨f1, f2, f3, f4, f5, f6, f7, f8⟩, n1, n2⟩ := h2
  exact ⟨⟨e1.trans f1, e2.trans f2, e3.trans f3, e4.trans f4, e5.trans f5,
          e6.trans f6, e7.trans f7, e8.trans f8⟩,
         fun h => n1 (m1 h), fun h => n2 (m2 h)⟩

theorem RenderOk_refl (W : World) : RenderOk W W :=
  ⟨fun _ => RStep_refl _, rfl⟩

theorem RenderOk_trans {A B C : World} (h1 : RenderOk A B) (h2 : RenderOk B C) :
    RenderOk A C :=
  ⟨fun r => RStep_trans (h1.1 r) (h2.1 r), h2.2.trans h1.2⟩

theorem emit_countLoad (W : World) (e : Ev) (he : countLoad [e] = 0) :
    countLoad (emit W e).trace = countLoad W.trace := by
  simp [emit, countLoad_append, he]

theorem emit_RenderOk (W : World) (e : Ev) (he : countLoad [e] = 0) :
    RenderOk W (emit W e) :=
  ⟨fun _ => RStep_refl _, emit_countLoad W e he⟩

theorem poolFetch_RenderOk (W : World) (rid : Nat) :
    RenderOk W ((_poolFetch W rid).2) := by
  unfold _poolFetch
  split
  · exact ⟨fun _ => RStep_refl _, emit_countLoad _ _ (by simp [countLoad])⟩
  · split
    · exact ⟨fun _ => RStep_refl _, emit_countLoad _ _ (by simp [countLoad])⟩
    · exact ⟨fun _ => RStep_refl _, emit_countLoad _ _ (by simp [countLoad])⟩

theorem poolReturn_RenderOk (W : World) (w : Nat) :
    RenderOk W (_poolReturn W w) := by
  unfold _poolReturn
  split
  · exact ⟨fun _ => RStep_refl _, emit_countLoad _ _ (by simp [countLoad])⟩
  · split
    · exact ⟨fun _ => RStep_refl _, emit_countLoad _ _ (by simp [countLoad])⟩
    · exact ⟨fun _ => RStep_refl _, emit_countLoad _ _ (by simp [countLoad])⟩

theorem setRendered_RenderOk (W : World) (rid : Nat) :
    RenderOk W { W with heap := hUpdate W.heap rid { W.heap rid with _rendered := true } } := by
  refine ⟨fun r => ?_, rfl⟩
  by_cases h : r = rid
  · subst h
    simp [RStep, FrameEq, hUpdate]
  · simp [RStep, FrameEq, hUpdate, h]

theorem setBothFlags_RenderOk (W : World) (rid : Nat) :
    RenderOk W { W with heap := hUpdate W.heap rid
                          { W.heap rid with _rendered := true, _childrenRendered := true } } := by
  refine ⟨fun r => ?_, rfl⟩
  by_cases h : r = rid
  · subst h
    simp [RStep, FrameEq, hUpdate]
  · simp [RStep, FrameEq, hUpdate, h]

theorem setCR_RenderOk (W : World) (rid : Nat) :
    RenderOk W (updRec W rid (fun n => { n with _childrenRendered := true })) := by
  refine ⟨fun r => ?_, rfl⟩
  by_cases h : r = rid
  · subst h
    simp [updRec, RStep, FrameEq, hUpdate]
  · simp [updRec, RStep, FrameEq, hUpdate, h]

theorem forSomeSteps_cons {σ : Type} (fn : σ → World → Nat → Nat → List Nat → σ × World × Bool)
    (arr : List Nat) (c : Nat) (cs : List Nat) (i : Nat) (s : σ) (W : World) :
    forSomeSteps fn arr (c :: cs) i s W =
      if (fn s (emit (_poolFetch W c).2 (Ev.fnCall (_poolFetch W c).1 i)) (_poolFetch W c).1 i arr).2.2
      then ((fn s (emit (_poolFetch W c).2 (Ev.fnCall (_poolFetch W c).1 i)) (_poolFetch W c).1 i arr).1,
            _poolReturn
              (fn s (emit (_poolFetch W c).2 (Ev.fnCall (_poolFetch W c).1 i)) (_poolFetch W c).1 i arr).2.1
              (_poolFetch W c).1)
      else forSomeSteps fn arr cs (i + 1)
            (fn s (emit (_poolFetch W c).2 (Ev.fnCall (_poolFetch W c).1 i)) (_poolFetch W c).1 i arr).1
            (_poolReturn
              (fn s (emit (_poolFetch W c).2 (Ev.fnCall (_poolFetch W c).1 i)) (_poolFetch W c).1 i arr).2.1
              (_poolFetch W c).1) := rfl

theorem forSomeSteps_RenderOk {σ : Type}
    (fn : σ → World → Nat → Nat → List Nat → σ × World × Bool)
    (hfn : ∀ s W w i a, RenderOk W ((fn s W w i a).2.1)) (arr : List Nat) :
    ∀ (l : List Nat) (i : Nat) (s : σ) (W : World),
      RenderOk W ((forSomeSteps fn arr l i s W).2) := by
  intro l
  induction l with
  | nil => intro i s W; exact RenderOk_refl W
  | cons c cs ih =>
      intro i s W
      rw [forSomeSteps_cons]
      have h1 : RenderOk W (emit (_poolFetch W c).2 (Ev.fnCall (_poolFetch W c).1 i)) :=
        RenderOk_trans (poolFetch_RenderOk W c)
          (emit_RenderOk _ _ (by simp [countLoad]))
      have h2 := hfn s (emit (_poolFetch W c).2 (Ev.fnCall (_poolFetch W c).1 i))
        (_poolFetch W c).1 i arr
      have h3 := poolReturn_RenderOk
        (fn s (emit (_poolFetch W c).2 (Ev.fnCall (_poolFetch W c).1 i)) (_poolFetch W c).1 i arr).2.1
        (_poolFetch W c).1
      have h4 : RenderOk W
          (_poolReturn
            (fn s (emit (_poolFetch W c).2 (Ev.fnCall (_poolFetch W c).1 i)) (_poolFetch W c).1 i arr).2.1
            (_poolFetch W c).1) :=
        RenderOk_trans (RenderOk_trans h1 h2) h3
      split
      · exact h4
      · exact RenderOk_trans h4 (ih _ _ _)

theorem forSomeChildren_RenderOk {σ : Type}
    (fn : σ → World → Nat → Nat → List Nat → σ × World × Bool)
    (hfn : ∀ s W w i a, RenderOk W ((fn s W w i a).2.1)) (W : World) (rid : Nat) (init : σ) :
    RenderOk W ((forSomeChildren fn W rid init).2) := by
  unfold forSomeChildren
  split
  · split
    · exact RenderOk_refl W
    · exact forSomeSteps_RenderOk fn hfn _ _ _ _ _
  · exact RenderOk_refl W

theorem getHTML_fst (fuel : Nat) (W : World) (rid index nSiblings : Nat) (depth : Int) :
    (_getHTML (fuel + 1) W rid index nSiblings depth).1 =
      langSub (resolveTemplate (W.heap rid))
        (attrsList (W.heap rid)
          ((if (jsChildCount (W.heap rid) != 0) && _expandedGetter (W.heap rid) then
              forSomeChildren (renderFn fuel depth)
                { W with heap := hUpdate W.heap rid
                           { W.heap rid with _rendered := true, _childrenRendered := true } }
                rid ""
            else
              ("", { W with heap := hUpdate W.heap rid
                              { W.heap rid with _rendered := true } })).1)
          (nodeClassString (W.heap rid) W.dynLoader index nSiblings)) := rfl

theorem getHTML_snd (fuel : Nat) (W : World) (rid index nSiblings : Nat) (depth : Int) :
    (_getHTML (fuel + 1) W rid index nSiblings depth).2 =
      (if (jsChildCount (W.heap rid) != 0) && _expandedGetter (W.heap rid) then
         forSomeChildren (renderFn fuel depth)
           { W with heap := hUpdate W.heap rid
                      { W.heap rid with _rendered := true, _childrenRendered := true } }
           rid ""
       else
         ("", { W with heap := hUpdate W.heap rid
                         { W.heap rid with _rendered := true } })).2 := rfl

theorem getHTML_RenderOk :
    ∀ (fuel : Nat) (W : World) (rid index nSiblings : Nat) (depth : Int),
      RenderOk W ((_getHTML fuel W rid index nSiblings depth).2) := by
  intro fuel
  induction fuel with
  | zero => intro W rid index nSiblings depth; exact RenderOk_refl W
  | succ fuel ih =>
      intro W rid index nSiblings depth
      have hfn : ∀ (s : String) (Wf : World) (w i : Nat) (a : List Nat),
          RenderOk Wf ((renderFn fuel depth s Wf w i a).2.1) := by
        intro s Wf w i a
        cases hb : Wf.binds w with
        | none =>
            simp only [renderFn, hb]
            exact RenderOk_refl Wf
        | some crid =>
            simp only [renderFn, hb]
            exact ih Wf crid i a.length (depth + 1)
      rw [getHTML_snd]
      by_cases hc : ((jsChildCount (W.heap rid) != 0) && _expandedGetter (W.heap rid)) = true
      · rw [if_pos hc]
        exact RenderOk_trans (setBothFlags_RenderOk W rid)
          (forSomeChildren_RenderOk _ hfn _ rid "")
      · rw [if_neg hc]
        exact setRendered_RenderOk W rid

theorem renderFn_RenderOk (fuel : Nat) (depth : Int) (s : String) (Wf : World)
    (w i : Nat) (a : List Nat) :
    RenderOk Wf ((renderFn fuel depth s Wf w i a).2.1) := by
  cases hb : Wf.binds w with
  | none =>
      simp only [renderFn, hb]
      exact RenderOk_refl Wf
  | some crid =>
      simp only [renderFn, hb]
      exact getHTML_RenderOk fuel Wf crid i a.length (depth + 1)

theorem renderChildren_eq (fuel : Nat) (W : World) (rid : Nat) :
    _renderChildren fuel W rid =
      emit (forSomeChildren (renderFn fuel (depthGetter fuel W.heap rid))
              (updRec W rid (fun n => { n with _childrenRendered := true })) rid "").2
        (Ev.setContent (W.heap rid).id
          (forSomeChildren (renderFn fuel (depthGetter fuel W.heap rid))
              (updRec W rid (fun n => { n with _childrenRendered := true })) rid "").1) := rfl

theorem renderChildren_RenderOk (fuel : Nat) (W : World) (rid : Nat) :
    RenderOk W (_renderChildren fuel W rid) := by
  rw [renderChildren_eq]
  exact RenderOk_trans
    (RenderOk_trans (setCR_RenderOk W rid)
      (forSomeChildren_RenderOk _ (renderFn_RenderOk fuel (depthGetter fuel W.heap rid)) _ rid ""))
    (emit_RenderOk _ _ (by simp [countLoad]))

theorem expandedSetter_eq (fuel : Nat) (W : World) (rid : Nat) (v : JSVal) :
    _expandedSetter fuel W rid v =
      (if W.dynLoader && !(W.heap rid).isLeaf && (jsChildCount (W.heap rid) == 0) then
         _loadDynamic
           { W with heap := hUpdate W.heap rid { W.heap rid with expanded := some (jsToBool v) } }
           rid
       else if jsChildCount (W.heap rid) != 0 then
         if jsToBool v then
           emit
             (if !(W.heap rid)._childrenRendered then
                _renderChildren fuel
                  { W with heap := hUpdate W.heap rid
                             { W.heap rid with expanded := some (jsToBool v) } }
                  rid
              else
                { W with heap := hUpdate W.heap rid
                           { W.heap rid with expanded := some (jsToBool v) } })
             (Ev.replaceClass (W.heap rid).id CNAME_COLLAPSED CNAME_EXPANDED)
         else
           emit
             { W with heap := hUpdate W.heap rid
                        { W.heap rid with expanded := some (jsToBool v) } }
             (Ev.replaceClass (W.heap rid).id CNAME_EXPANDED CNAME_COLLAPSED)
       else
         { W with heap := hUpdate W.heap rid
                    { W.heap rid with expanded := some (jsToBool v) } }) := rfl

/-- Claim C1: in `sibWorld` the parent record `0` has the ordered
children `[1, 2, 3]` (x, y, z) and wrappers `10`, `11`, `12` are bound
to them.  `getPreviousSibling` on x and `getNextSibling` on z return
none as the claim states, but `getNextSibling` on the middle child y
ALSO returns none instead of a wrapper bound to z: the source computes
`siblings.indexOf(this)` where `this` is the wrapper object while
`siblings` holds the record objects, so the lookup always yields `-1`
and the sibling can never be found (the index was meant to be that of
`this._node`). -/
theorem claim1_sibling_eval :
    (getPreviousSibling sibWorld 10).1 = none ∧
    (getNextSibling sibWorld 12).1 = none ∧
    (getNextSibling sibWorld 11).1 = none := by
  decide

/-- Claim C2: in `dynWorld` record `1` has no children, is not a leaf,
and a dynamic loader is configured; wrapper `10` is bound to it.
Setting `expanded` to `false` does record `expanded = false`, but it is
NOT purely a classification change: `_expandedSetter` checks the
dynamic-loader condition before looking at the new value, so collapsing
this record swaps in the loading class and invokes the loader. -/
theorem claim2_collapse_invokes_loader :
    ((setExpanded 5 dynWorld 10 (JSVal.bool false)).heap 1).expanded = some false ∧
    (setExpanded 5 dynWorld 10 (JSVal.bool false)).trace =
      [Ev.replaceClass "n1" CNAME_COLLAPSED CNAME_LOADING, Ev.loaderCall 1] := by
  decide

/-- Claim C3, counterexample: in `dynWorld` record `1` is eligible for
dynamic loading.  When the loader resumes with the empty array (an
empty result, but truthy in JavaScript), `_dynamicLoadReturn` takes the
children branch: `isLeaf` stays `false`, the node is classified
expanded rather than no-children, and a subsequent set of `expanded`
invokes the loader again. -/
theorem claim3_counterexample :
    ((_dynamicLoadReturn 5 dynWorld 1 (some [])).heap 1).isLeaf = false ∧
    (_dynamicLoadReturn 5 dynWorld 1 (some [])).trace =
      [Ev.setContent "n1" "", Ev.replaceClass "n1" CNAME_LOADING CNAME_EXPANDED] ∧
    countLoad (applySets 5 1 [JSVal.bool true] (_dynamicLoadReturn 5 dynWorld 1 (some []))).trace = 1 := by
  decide

theorem depthCount_of_parent_none (fuel : Nat) (h : Nat → TreeRecord) (rid : Nat)
    (hp : (h rid)._parent = none) : depthCount fuel h rid = 0 := by
  cases fuel <;> simp [depthCount, hp]

theorem depthCount_of_parent (fuel : Nat) (h : Nat → TreeRecord) (rid p : Nat)
    (hp : (h rid)._parent = some p) :
    depthCount (fuel + 1) h rid = depthCount fuel h p + 1 := by
  simp [depthCount, hp]

/-- Claim C7: for a chain sentinel ← root ← a ← b ← c of `_parent`
back-references (the sentinel super-root having no parent and being
excluded from the count), the `depth` getter reports 0 for root, 1 for
a, 2 for b and 3 for c, for any walk bound covering the chain. -/
theorem claim7_depth_chain (fuel : Nat) (h : Nat → TreeRecord) (sent root a b c : Nat)
    (h0 : (h sent)._parent = none) (h1 : (h root)._parent = some sent)
    (h2 : (h a)._parent = some root) (h3 : (h b)._parent = some a)
    (h4 : (h c)._parent = some b) :
    depthGetter (fuel + 4) h root = 0 ∧ depthGetter (fuel + 4) h a = 1 ∧
    depthGetter (fuel + 4) h b = 2 ∧ depthGetter (fuel + 4) h c = 3 := by
  have s0 : depthCount fuel h sent = 0 := depthCount_of_parent_none _ h sent h0
  have s1 : depthCount (fuel + 1) h sent = 0 := depthCount_of_parent_none _ h sent h0
  have s2 : depthCount (fuel + 2) h sent = 0 := depthCount_of_parent_none _ h sent h0
  have s3 : depthCount (fuel + 3) h sent = 0 := depthCount_of_parent_none _ h sent h0
  have r1 : depthCount (fuel + 1) h root = depthCount fuel h sent + 1 :=
    depthCount_of_parent fuel h root sent h1
  have r2 : depthCount (fuel + 2) h root = depthCount (fuel + 1) h sent + 1 :=
    depthCount_of_parent (fuel + 1) h root sent h1
  have r3 : depthCount (fuel + 3) h root = depthCount (fuel + 2) h sent + 1 :=
    depthCount_of_parent (fuel + 2) h root sent h1
  have r4 : depthCount (fuel + 4) h root = depthCount (fuel + 3) h sent + 1 :=
    depthCount_of_parent (fuel + 3) h root sent h1
  have a2 : depthCount (fuel + 2) h a = depthCount (fuel + 1) h root + 1 :=
    depthCount_of_parent (fuel + 1) h a root h2
  have a3 : depthCount (fuel + 3) h a = depthCount (fuel + 2) h root + 1 :=
    depthCount_of_parent (fuel + 2) h a root h2
  have a4 : depthCount (fuel + 4) h a = depthCount (fuel + 3) h root + 1 :=
    depthCount_of_parent (fuel + 3) h a root h2
  have b3 : depthCount (fuel + 3) h b = depthCount (fuel + 2) h a + 1 :=
    depthCount_of_parent (fuel + 2) h b a h3
  have b4 : depthCount (fuel + 4) h b = depthCount (fuel + 3) h a + 1 :=
    depthCount_of_parent (fuel + 3) h b a h3
  have c4 : depthCount (fuel + 4) h c = depthCount (fuel + 3) h b + 1 :=
    depthCount_of_parent (fuel + 3) h c b h4
  refine ⟨?_, ?_, ?_, ?_⟩ <;> (unfold depthGetter; omega)

/-- Witness for claim C7 on the concrete chain heap. -/
theorem claim7_witness :
    depthGetter 9 chainHeap 1 = 0 ∧ depthGetter 9 chainHeap 2 = 1 ∧
    depthGetter 9 chainHeap 3 = 2 ∧ depthGetter 9 chainHeap 4 = 3 :=
  claim7_depth_chain 5 chainHeap 0 1 2 3 4 (by decide) (by decide) (by decide)
    (by decide) (by decide)

/-- Claim C8: absence conditions are answered with none and without
error: on a bound wrapper whose record has no parent, `getParent`,
`getNextSibling` and `getPreviousSibling` return none and leave the
state unchanged; `forSomeChildren` on a record whose `children` is
absent or empty invokes the callback zero times (result and state are
untouched, no events); and on a bound wrapper whose record is an only
child, both sibling lookups also return none. -/
theorem claim8_absence {σ : Type} (fn : σ → World → Nat → Nat → List Nat → σ × World × Bool)
    (init : σ) (W : World) (w rid w2 rid2 p : Nat)
    (hb : W.binds w = some rid) (hp : (W.heap rid)._parent = none)
    (hc : jsChildCount (W.heap rid) = 0)
    (hb2 : W.binds w2 = some rid2) (hp2 : (W.heap rid2)._parent = some p)
    (honly : (W.heap p).children = some [rid2]) :
    getParent W w = (none, W) ∧ getNextSibling W w = (none, W) ∧
    getPreviousSibling W w = (none, W) ∧
    forSomeChildren fn W rid init = (init, W) ∧
    getNextSibling W w2 = (none, W) ∧ getPreviousSibling W w2 = (none, W) := by
  refine ⟨?_, ?_, ?_, ?_, ?_, ?_⟩
  · simp [getParent, hb, hp]
  · simp [getNextSibling, hb, hp, jsIndexOf]
  · simp [getPreviousSibling, hb, hp, jsIndexOf]
  · rcases hch : (W.heap rid).children with _ | l
    · simp [forSomeChildren, hch]
    · have hl : l = [] := by
        have h' := hc
        simp [jsChildCount, hch] at h'
        exact h'
      subst hl
      simp [forSomeChildren, hch]
  · simp [getNextSibling, hb2, hp2, honly, jsIndexOf]
  · simp [getPreviousSibling, hb2, hp2, honly, jsIndexOf]

/-- Witness for claim C8 on the concrete absence world. -/
theorem claim8_witness :
    getParent absWorld 10 = (none, absWorld) ∧ getNextSibling absWorld 10 = (none, absWorld) ∧
    getPreviousSibling absWorld 10 = (none, absWorld) ∧
    forSomeChildren (fun (s : Nat) Wf _ _ _ => (s, Wf, true)) absWorld 1 0 = (0, absWorld) ∧
    getNextSibling absWorld 11 = (none, absWorld) ∧
    getPreviousSibling absWorld 11 = (none, absWorld) :=
  claim8_absence (fun (s : Nat) Wf _ _ _ => (s, Wf, true)) 0 absWorld 10 1 11 3 2
    rfl rfl rfl rfl rfl rfl

/-- Claim C9: for every bound wrapper and value `v`, after the
`expanded` setter runs, the record's `expanded` field equals the
boolean coercion of `v` in every branch (the field is written before
the dynamic-loader check, and neither `_loadDynamic` nor
`_renderChildren` nor the class swaps touch it). -/
theorem claim9_setter_writes_expanded (fuel : Nat) (W : World) (w rid : Nat) (v : JSVal)
    (hb : W.binds w = some rid) :
    ((setExpanded fuel W w v).heap rid).expanded = some (jsToBool v) := by
  have hW1 : (hUpdate W.heap rid { W.heap rid with expanded := some (jsToBool v) } rid).expanded
      = some (jsToBool v) := by
    rw [hUpdate_self]
  simp only [setExpanded, hb]
  rw [expandedSetter_eq]
  split
  · simp only [_loadDynamic, emit]
    exact hW1
  · split
    · split
      · simp only [emit]
        split
        · have h := ((renderChildren_RenderOk fuel
            { W with heap := hUpdate W.heap rid
                       { W.heap rid with expanded := some (jsToBool v) } } rid).1 rid).1
          rw [← h.2.2.2.1]
          exact hW1
        · exact hW1
      · simp only [emit]
        exact hW1
    · exact hW1

/-- Witness for claim C9: a numeric truthy value is coerced to `true`
and stored on the record. -/
theorem claim9_witness :
    ((setExpanded 3 dynWorld 10 (JSVal.num 7)).heap 1).expanded = some (jsToBool (JSVal.num 7)) :=
  claim9_setter_writes_expanded 3 dynWorld 10 1 (JSVal.num 7) rfl

/-- Claim C10: on a bound wrapper `w`, `hold()` stores `w` itself in the
record's `_held` field; a subsequent `release()` resets `_held` to none
and pushes `w` back onto the manager's free list (the pool-return is
modelled from the spec, see `_poolReturn`). -/
theorem claim10_hold_release (W : World) (w rid : Nat) (hb : W.binds w = some rid) :
    ((hold W w).heap rid)._held = some w ∧
    ((release (hold W w) w).heap rid)._held = none ∧
    (release (hold W w) w).freeList = w :: W.freeList := by
  have h1 : (hold W w).heap rid = { W.heap rid with _held := some w } := by
    simp [hold, hb, updRec, hUpdate]
  have hbinds : (hold W w).binds = W.binds := by
    simp [hold, hb, updRec]
  have hfree : (hold W w).freeList = W.freeList := by
    simp [hold, hb, updRec]
  have hrel : release (hold W w) w
      = _poolReturn (updRec (hold W w) rid (fun n => { n with _held := none })) w := by
    simp [release, hbinds, hb]
  have hA_binds : (updRec (hold W w) rid (fun n => { n with _held := none })).binds w
      = some rid := by
    simp [updRec, hbinds, hb]
  have hA_heap : (updRec (hold W w) rid (fun n => { n with _held := none })).heap rid
      = { (hold W w).heap rid with _held := none } := by
    simp [updRec, hUpdate]
  have hA_free : (updRec (hold W w) rid (fun n => { n with _held := none })).freeList
      = W.freeList := by
    simp [updRec, hfree]
  refine ⟨?_, ?_, ?_⟩
  · rw [h1]
  · rw [hrel]
    unfold _poolReturn
    rw [hA_binds]
    simp only [hA_heap]
    simp [emit, hA_heap]
  · rw [hrel]
    unfold _poolReturn
    rw [hA_binds]
    simp only [hA_heap]
    simp [emit, hA_free]

/-- Witness for claim C10 on the concrete sibling world. -/
theorem claim10_witness :
    ((hold sibWorld 10).heap 1)._held = some 10 ∧
    ((release (hold sibWorld 10) 10).heap 1)._held = none ∧
    (release (hold sibWorld 10) 10).freeList = 10 :: sibWorld.freeList :=
  claim10_hold_release sibWorld 10 1 rfl

theorem FrameEq_trans {a b c : TreeRecord} (h1 : FrameEq a b) (h2 : FrameEq b c) :
    FrameEq a c := by
  obtain ⟨e1, e2, e3, e4, e5, e6, e7, e8⟩ := h1
  obtain ⟨f1, f2, f3, f4, f5, f6, f7, f8⟩ := h2
  exact ⟨e1.trans f1, e2.trans f2, e3.trans f3, e4.trans f4, e5.trans f5,
         e6.trans f6, e7.trans f7, e8.trans f8⟩

/-- Claim C6: `_getHTML` always sets the record's `_rendered` flag; it
sets `_childrenRendered` exactly when the call recursed into the
children (record has children and the `expanded` attribute is true),
leaving it at its previous value otherwise; and no record field other
than the two render flags is modified anywhere in the heap. -/
theorem claim6_getHTML_flags (fuel : Nat) (W : World) (rid index nSiblings : Nat)
    (depth : Int) :
    (((_getHTML (fuel + 1) W rid index nSiblings depth).2).heap rid)._rendered = true ∧
    (((_getHTML (fuel + 1) W rid index nSiblings depth).2).heap rid)._childrenRendered =
      (((jsChildCount (W.heap rid) != 0) && _expandedGetter (W.heap rid))
        || (W.heap rid)._childrenRendered) ∧
    (∀ r, FrameEq (W.heap r) (((_getHTML (fuel + 1) W rid index nSiblings depth).2).heap r)) := by
  rw [getHTML_snd]
  by_cases hc : ((jsChildCount (W.heap rid) != 0) && _expandedGetter (W.heap rid)) = true
  · rw [if_pos hc]
    have hrest := forSomeChildren_RenderOk _ (renderFn_RenderOk fuel depth)
      { W with heap := hUpdate W.heap rid
                 { W.heap rid with _rendered := true, _childrenRendered := true } } rid ""
    have hstep := hrest.1 rid
    have hWbr : ({ W with heap := hUpdate W.heap rid
                              { W.heap rid with _rendered := true,
                                                _childrenRendered := true } } : World).heap rid
        = { W.heap rid with _rendered := true, _childrenRendered := true } := by
      simp [hUpdate]
    refine ⟨?_, ?_, ?_⟩
    · apply hstep.2.1
      rw [hWbr]
    · rw [hc, Bool.true_or]
      apply hstep.2.2
      rw [hWbr]
    · intro r
      exact FrameEq_trans ((setBothFlags_RenderOk W rid).1 r).1 (hrest.1 r).1
  · have hcf : ((jsChildCount (W.heap rid) != 0) && _expandedGetter (W.heap rid)) = false := by
      simpa using hc
    rw [if_neg hc]
    refine ⟨?_, ?_, ?_⟩
    · simp [hUpdate]
    · rw [hcf, Bool.false_or]
      simp [hUpdate]
    · intro r
      exact ((setRendered_RenderOk W rid).1 r).1

theorem renderAll_cons (fuel : Nat) (depth : Int) (arr : List Nat) (c : Nat) (cs : List Nat)
    (i : Nat) (s : String) (W : World) :
    renderAll fuel depth arr (c :: cs) i s W =
      renderAll fuel depth arr cs (i + 1)
        (match (emit (_poolFetch W c).2 (Ev.fnCall (_poolFetch W c).1 i)).binds (_poolFetch W c).1 with
         | some crid =>
             (s ++ (_getHTML fuel (emit (_poolFetch W c).2 (Ev.fnCall (_poolFetch W c).1 i))
                      crid i arr.length (depth + 1)).1,
              (_getHTML fuel (emit (_poolFetch W c).2 (Ev.fnCall (_poolFetch W c).1 i))
                 crid i arr.length (depth + 1)).2)
         | none => (s, emit (_poolFetch W c).2 (Ev.fnCall (_poolFetch W c).1 i))).1
        (_poolReturn
          (match (emit (_poolFetch W c).2 (Ev.fnCall (_poolFetch W c).1 i)).binds (_poolFetch W c).1 with
           | some crid =>
               (s ++ (_getHTML fuel (emit (_poolFetch W c).2 (Ev.fnCall (_poolFetch W c).1 i))
                        crid i arr.length (depth + 1)).1,
                (_getHTML fuel (emit (_poolFetch W c).2 (Ev.fnCall (_poolFetch W c).1 i))
                   crid i arr.length (depth + 1)).2)
           | none => (s, emit (_poolFetch W c).2 (Ev.fnCall (_poolFetch W c).1 i))).2
          (_poolFetch W c).1) := rfl

theorem steps_eq_renderAll (fuel : Nat) (depth : Int) (arr : List Nat) :
    ∀ (l : List Nat) (i : Nat) (s : String) (W : World),
      forSomeSteps (renderFn fuel depth) arr l i s W = renderAll fuel depth arr l i s W := by
  intro l
  induction l with
  | nil => intro i s W; rfl
  | cons c cs ih =>
      intro i s W
      rw [forSomeSteps_cons, renderAll_cons]
      cases hb : (emit (_poolFetch W c).2 (Ev.fnCall (_poolFetch W c).1 i)).binds (_poolFetch W c).1 with
      | some crid => simp [renderFn, hb, ih]
      | none => simp [renderFn, hb, ih]

/-- Claim C5: the markup `_getHTML` produces substitutes the `children`
placeholder with a string `s` that is the concatenated markup of all
children, rendered in stored order (`renderAll`), exactly when the
record has children and its `expanded` attribute is true; when the
record is childless or collapsed, `s` is the empty string. -/
theorem claim5_children_slot (fuel : Nat) (W : World) (rid index nSiblings : Nat)
    (depth : Int) :
    ∃ s : String,
      (_getHTML (fuel + 1) W rid index nSiblings depth).1 =
        langSub (resolveTemplate (W.heap rid))
          (attrsList (W.heap rid) s (nodeClassString (W.heap rid) W.dynLoader index nSiblings)) ∧
      (((jsChildCount (W.heap rid) != 0) && _expandedGetter (W.heap rid)) = false → s = "") ∧
      (((jsChildCount (W.heap rid) != 0) && _expandedGetter (W.heap rid)) = true →
        s = (renderAll fuel depth (((W.heap rid).children).getD [])
              (((W.heap rid).children).getD []) 0 ""
              { W with heap := hUpdate W.heap rid
                         { W.heap rid with _rendered := true,
                                           _childrenRendered := true } }).1) := by
  by_cases hc : ((jsChildCount (W.heap rid) != 0) && _expandedGetter (W.heap rid)) = true
  · refine ⟨(forSomeChildren (renderFn fuel depth)
        { W with heap := hUpdate W.heap rid
                   { W.heap rid with _rendered := true,
                                     _childrenRendered := true } } rid "").1, ?_, ?_, ?_⟩
    · rw [getHTML_fst, if_pos hc]
    · intro h
      rw [h] at hc
      cases hc
    · intro _
      have h1 : (jsChildCount (W.heap rid) != 0) = true := by
        have := hc
        rw [Bool.and_eq_true] at this
        exact this.1
      obtain ⟨l, hl, hlne⟩ : ∃ l, (W.heap rid).children = some l ∧ l.length ≠ 0 := by
        cases hch : (W.heap rid).children with
        | none => simp [jsChildCount, hch] at h1
        | some l =>
            refine ⟨l, rfl, ?_⟩
            simpa [jsChildCount, hch] using h1
      have hWbch : (({ W with heap := hUpdate W.heap rid
                                        { W.heap rid with _rendered := true,
                                                          _childrenRendered := true } } : World).heap
            rid).children
          = some l := by
        simp [hUpdate, hl]
      unfold forSomeChildren
      rw [hWbch]
      dsimp only
      rw [if_neg hlne, steps_eq_renderAll]
      simp [hl]
  · have hcf : ((jsChildCount (W.heap rid) != 0) && _expandedGetter (W.heap rid)) = false := by
      simpa using hc
    refine ⟨"", ?_, fun _ => rfl, ?_⟩
    · rw [getHTML_fst, if_neg hc]
    · intro h
      rw [h] at hcf
      cases hcf

/-- Witness for claim C5 at a collapsed record: instantiating the claim
at `sibWorld`, record `2`. -/
theorem claim5_witness :
    ∃ s : String,
      (_getHTML 4 sibWorld 2 0 1 0).1 =
        langSub (resolveTemplate (sibWorld.heap 2))
          (attrsList (sibWorld.heap 2) s (nodeClassString (sibWorld.heap 2) sibWorld.dynLoader 0 1)) := by
  obtain ⟨s, h1, h2, h3⟩ := claim5_children_slot 3 sibWorld 2 0 1 0
  exact ⟨s, h1⟩

theorem cycle_step (W : World) (c w0 : Nat) (rest : List Nat) (i : Nat)
    (hfree : W.freeList = w0 :: rest) (hb : W.binds w0 = none)
    (hheld : (W.heap c)._held = none) :
    (_poolFetch W c).1 = w0 ∧
    _poolReturn (emit (_poolFetch W c).2 (Ev.fnCall (_poolFetch W c).1 i)) (_poolFetch W c).1
      = { W with trace := W.trace ++ [Ev.poolFetch c w0, Ev.fnCall w0 i, Ev.poolReturn w0] } := by
  have hfetch : _poolFetch W c
      = (w0, emit { W with freeList := rest,
                           binds := fun j => if j = w0 then some c else W.binds j }
               (Ev.poolFetch c w0)) := by
    simp only [_poolFetch, hheld, hfree]
  constructor
  · rw [hfetch]
  · rw [hfetch]
    simp only [emit, _poolReturn, hheld]
    have hbinds : (fun j => if j = w0 then none else if j = w0 then some c else W.binds j)
        = W.binds := by
      funext j
      by_cases hj : j = w0
      · simp [hj, hb]
      · simp [hj]
    simp [hheld, hfree, hbinds, World.mk.injEq]

theorem forSomeSteps_pure_trace {σ : Type} (verdicts : Nat → Bool) (arr : List Nat) :
    ∀ (l : List Nat) (i : Nat) (s : σ) (W : World) (w0 : Nat) (rest : List Nat),
      W.freeList = w0 :: rest → W.binds w0 = none →
      (∀ c ∈ l, (W.heap c)._held = none) →
      forSomeSteps (fun s Wf _ i _ => (s, Wf, verdicts i)) arr l i s W
        = (s, { W with trace := W.trace ++ tripleTrace w0 (coveredPrefix verdicts l i) }) := by
  intro l
  induction l with
  | nil =>
      intro i s W w0 rest hfree hb hheld
      simp [forSomeSteps, coveredPrefix, tripleTrace]
  | cons c cs ih =>
      intro i s W w0 rest hfree hb hheld
      rw [forSomeSteps_cons]
      obtain ⟨hf1, hf2⟩ := cycle_step W c w0 rest i hfree hb (hheld c (by simp))
      dsimp only
      cases hv : verdicts i with
      | true =>
          rw [if_pos rfl]
          rw [hf2]
          simp [coveredPrefix, hv, tripleTrace]
      | false =>
          rw [if_neg (by simp)]
          rw [hf2]
          rw [ih (i + 1) s
              { W with trace := W.trace ++ [Ev.poolFetch c w0, Ev.fnCall w0 i, Ev.poolReturn w0] }
              w0 rest hfree hb (fun c' hc' => hheld c' (by simp [hc']))]
          simp [coveredPrefix, hv, tripleTrace, World.mk.injEq]

/-- Claim C4: `forSomeChildren` visits the children in stored order;
for each visited child it fetches a pooled wrapper (here the single free
wrapper `w0`, reused throughout), invokes the callback, and returns that
wrapper to the pool immediately afterwards; it stops at the first
invocation whose result is truthy (`coveredPrefix` cuts the children at
the first true verdict); and with a pure callback nothing but the trace
changes. -/
theorem claim4_forSomeChildren {σ : Type} (verdicts : Nat → Bool) (W : World) (rid : Nat)
    (init : σ) (children : List Nat) (w0 : Nat) (rest : List Nat)
    (hc : (W.heap rid).children = some children)
    (hfree : W.freeList = w0 :: rest) (hb : W.binds w0 = none)
    (hheld : ∀ c ∈ children, (W.heap c)._held = none) :
    forSomeChildren (fun s Wf _ i _ => (s, Wf, verdicts i)) W rid init
      = (init, { W with trace := W.trace ++ tripleTrace w0 (coveredPrefix verdicts children 0) }) := by
  unfold forSomeChildren
  rw [hc]
  dsimp only
  by_cases hlen : children.length = 0
  · rw [if_pos hlen]
    have hnil : children = [] := List.length_eq_zero.mp hlen
    subst hnil
    simp [coveredPrefix, tripleTrace]
  · rw [if_neg hlen]
    exact forSomeSteps_pure_trace verdicts children children 0 init W w0 rest hfree hb hheld

/-- Witness for claim C4: iterating the three children of record `5` of
`iterWorld` with a callback that stops at index 1 visits children `6`
and `7` only, each with an adjacent fetch/invoke/return triple on the
reused wrapper `30`. -/
theorem claim4_witness :
    forSomeChildren (fun (s : Nat) Wf (_ : Nat) (i : Nat) (_ : List Nat) => (s, Wf, i == 1))
        iterWorld 5 0
      = (0, { iterWorld with
                trace := iterWorld.trace ++ tripleTrace 30 (coveredPrefix (fun i => i == 1) [6, 7, 8] 0) }) :=
  claim4_forSomeChildren (fun i => i == 1) iterWorld 5 0 [6, 7, 8] 30 [] rfl rfl rfl
    (by intro c hc; fin_cases hc <;> rfl)

theorem RenderOk_isLeaf {A B : World} (h : RenderOk A B) (rid : Nat) :
    (B.heap rid).isLeaf = (A.heap rid).isLeaf :=
  (((h.1 rid).1).2.2.2.2.1).symm

theorem setter_of_isLeaf (fuel : Nat) (W : World) (rid : Nat) (v : JSVal)
    (hleaf : (W.heap rid).isLeaf = true) :
    ((_expandedSetter fuel W rid v).heap rid).isLeaf = true ∧
    countLoad (_expandedSetter fuel W rid v).trace = countLoad W.trace := by
  rw [expandedSetter_eq, if_neg (by simp [hleaf])]
  have hW1leaf : ((hUpdate W.heap rid { W.heap rid with expanded := some (jsToBool v) }) rid).isLeaf
      = true := by
    rw [hUpdate_self]
    exact hleaf
  by_cases h2 : (jsChildCount (W.heap rid) != 0) = true
  · rw [if_pos h2]
    cases hv : jsToBool v with
    | true =>
        rw [hv] at hW1leaf
        rw [if_pos rfl]
        constructor
        · simp only [emit]
          split
          · rw [RenderOk_isLeaf (renderChildren_RenderOk fuel _ rid) rid]
            exact hW1leaf
          · exact hW1leaf
        · simp only [emit]
          rw [countLoad_append]
          have hz : countLoad [Ev.replaceClass (W.heap rid).id CNAME_COLLAPSED CNAME_EXPANDED]
              = 0 := by
            simp [countLoad]
          rw [hz]
          split
          · rw [(renderChildren_RenderOk fuel _ rid).2]
            simp
          · simp
    | false =>
        rw [hv] at hW1leaf
        rw [if_neg (by simp)]
        constructor
        · simp only [emit]
          exact hW1leaf
        · simp only [emit]
          rw [countLoad_append]
          simp [countLoad]
  · rw [if_neg h2]
    exact ⟨hW1leaf, rfl⟩

theorem applySets_of_isLeaf (fuel : Nat) (rid : Nat) :
    ∀ (ops : List JSVal) (W : World), (W.heap rid).isLeaf = true →
      ((applySets fuel rid ops W).heap rid).isLeaf = true ∧
      countLoad (applySets fuel rid ops W).trace = countLoad W.trace := by
  intro ops
  induction ops with
  | nil => intro W h; exact ⟨h, rfl⟩
  | cons v vs ih =>
      intro W h
      have hs := setter_of_isLeaf fuel W rid v h
      have hrest := ih (_expandedSetter fuel W rid v) hs.1
      exact ⟨hrest.1, hrest.2.trans hs.2⟩

theorem dynLoadReturn_none_eq (fuel : Nat) (W : World) (rid : Nat) :
    _dynamicLoadReturn fuel W rid none =
      emit (updRec W rid (fun n => { n with isLeaf := true }))
        (Ev.replaceClass ((updRec W rid (fun n => { n with isLeaf := true })).heap rid).id
          CNAME_LOADING
          (if ((updRec W rid (fun n => { n with isLeaf := true })).heap rid).isLeaf
           then CNAME_NOCHILDREN else CNAME_EXPANDED)) := rfl

/-- Claim C3 (amended): for a record eligible for dynamic loading (no
children, not a leaf, loader configured), if the loader resumes with a
FALSY result then the record's `isLeaf` flag becomes true, the node's
loading class is replaced by the no-children class, and no subsequent
sequence of writes to the `expanded` attribute ever adds a loader
invocation to the trace.  (As stated, with "empty/falsy", the claim
fails: an empty array is truthy in JavaScript — see
`claim3_counterexample`.) -/
theorem claim3_falsy_leaf (fuel fuel2 : Nat) (W : World) (rid : Nat) (ops : List JSVal)
    (_hdyn : W.dynLoader = true) (_hleaf : (W.heap rid).isLeaf = false)
    (_hc : jsChildCount (W.heap rid) = 0) :
    ((_dynamicLoadReturn fuel W rid none).heap rid).isLeaf = true ∧
    (_dynamicLoadReturn fuel W rid none).trace =
      W.trace ++ [Ev.replaceClass (W.heap rid).id CNAME_LOADING CNAME_NOCHILDREN] ∧
    countLoad (applySets fuel2 rid ops (_dynamicLoadReturn fuel W rid none)).trace =
      countLoad (_dynamicLoadReturn fuel W rid none).trace := by
  have hnode : (updRec W rid (fun n => { n with isLeaf := true })).heap rid
      = { W.heap rid with isLeaf := true } := by
    simp [updRec, hUpdate]
  have hL : ((_dynamicLoadReturn fuel W rid none).heap rid).isLeaf = true := by
    rw [dynLoadReturn_none_eq]
    simp only [emit]
    rw [hnode]
  refine ⟨hL, ?_, ?_⟩
  · rw [dynLoadReturn_none_eq]
    simp only [emit, hnode]
    rfl
  · exact (applySets_of_isLeaf fuel2 rid ops _ hL).2

/-- Witness for the amended claim C3 at the concrete eligible record of
`dynWorld`, with two subsequent expanded writes. -/
theorem claim3_falsy_witness :
    ((_dynamicLoadReturn 3 dynWorld 1 none).heap 1).isLeaf = true ∧
    countLoad (applySets 3 1 [JSVal.bool true, JSVal.bool false]
        (_dynamicLoadReturn 3 dynWorld 1 none)).trace =
      countLoad (_dynamicLoadReturn 3 dynWorld 1 none).trace := by
  have h := claim3_falsy_leaf 3 3 dynWorld 1 [JSVal.bool true, JSVal.bool false] rfl rfl rfl
  exact ⟨h.1, h.2.2⟩
